import Mathlib

/-!
Verification of the encolajs hydrator coercion engine and class builder.

The development shallowly embeds the TypeScript sources:
  * `CastingManager.ts` (type registry, built-in casters/serializers, cast, serialize)
  * `ClassBuilder.ts` plus the `timestamps` and `softDelete` mixins.

JavaScript numbers are modelled as exact rationals (ℚ); `NaN` is a separate
constructor.  Dates are modelled by their broken-down UTC fields, which biject
with time values for valid field ranges.  Exceptions are modelled with
`Except`; `console.error` / `console.info` output is modelled as a list of log
strings threaded through the functions.
-/

namespace Hydrator

/-- Broken-down UTC time of a JavaScript `Date`'s time value.  `year` may be
negative (years before 1 CE are representable by JS dates). -/
structure DTime where
  year : Int
  month : Nat
  day : Nat
  hour : Nat
  minute : Nat
  second : Nat
  ms : Nat
deriving DecidableEq, Repr

/-- JavaScript runtime values, restricted to the shapes the library operates
on: primitives, `Date` objects (`none` is an Invalid Date), arrays, and plain
objects.  An object carries the result its `toJSON` method would return, when
it has one (models without such a capability carry `none`). -/
inductive JSVal where
  | null
  | undefined
  | num (q : ℚ)
  | nan
  | bool (b : Bool)
  | str (s : String)
  | date (d : Option DTime)
  | arr (elems : List JSVal)
  | obj (jsonVal : Option JSVal)

/-- JavaScript exceptions thrown by the modelled code paths. -/
inductive JSErr where
  | typeError (msg : String)
  | rangeError (msg : String)
  | genericError (msg : String)
deriving DecidableEq, Repr

/-- Whitespace recognized when JS trims a string before numeric conversion
(ASCII forms; exotic Unicode space characters are outside the model). -/
def isJsWhitespace (c : Char) : Bool :=
  c = ' ' || c = '\t' || c = '\n' || c = '\r'

/-- Strips leading and trailing whitespace (JS `String.prototype.trim`). -/
def jsTrim (cs : List Char) : List Char :=
  ((cs.dropWhile isJsWhitespace).reverse.dropWhile isJsWhitespace).reverse

/-- The decimal digit character for a value below ten. -/
def digitChar : Nat → Char
  | 0 => '0' | 1 => '1' | 2 => '2' | 3 => '3' | 4 => '4'
  | 5 => '5' | 6 => '6' | 7 => '7' | 8 => '8' | 9 => '9'
  | _ => '?'

/-- The numeric value of a decimal digit character. -/
def digitVal? (c : Char) : Option Nat :=
  if c = '0' then some 0 else if c = '1' then some 1 else if c = '2' then some 2
  else if c = '3' then some 3 else if c = '4' then some 4 else if c = '5' then some 5
  else if c = '6' then some 6 else if c = '7' then some 7 else if c = '8' then some 8
  else if c = '9' then some 9 else none

/-- Worker for `jsSplit`: accumulates the current segment (reversed) while
scanning. -/
def splitOnCharAux (sep : Char) : List Char → List Char → List String
  | [], acc => [String.mk acc.reverse]
  | c :: cs, acc =>
    if c = sep then String.mk acc.reverse :: splitOnCharAux sep cs []
    else splitOnCharAux sep cs (c :: acc)

/-- JS `String.prototype.split` with a single-character separator: always
returns at least one segment, and `"".split(sep) == [""]`. -/
def jsSplit (s : String) (sep : Char) : List String :=
  splitOnCharAux sep s.data []

/-- ASCII lower-casing of one character (JS `toLowerCase` restricted to the
ASCII range used by type names). -/
def asciiLowerChar (c : Char) : Char :=
  if 'A' ≤ c ∧ c ≤ 'Z' then Char.ofNat (c.toNat + 32) else c

/-- ASCII lower-casing of a string. -/
def asciiLower (s : String) : String :=
  String.mk (s.data.map asciiLowerChar)

/-- Number of occurrences of a separator character in a string. -/
def countSep (sep : Char) (s : String) : Nat :=
  s.data.count sep

/-- Takes the longest prefix of decimal digits, returning their values and the
rest of the input. -/
def takeDigits : List Char → List Nat × List Char
  | [] => ([], [])
  | c :: cs =>
    match digitVal? c with
    | some d =>
      let r := takeDigits cs
      (d :: r.1, r.2)
    | none => ([], c :: cs)

/-- Folds a digit list into the natural number it denotes. -/
def digitsToNat (ds : List Nat) : Nat :=
  ds.foldl (fun acc d => 10 * acc + d) 0

/-- Consumes an optional leading sign; returns whether it was negative. -/
def parseSign : List Char → Bool × List Char
  | '+' :: cs => (false, cs)
  | '-' :: cs => (true, cs)
  | cs => (false, cs)

/-- Parses an unsigned decimal literal `digits [. digits] [(e|E) [sign] digits]`
from the front of the input, as shared by JS `Number` and `parseFloat` after
sign handling.  Returns the value and the unconsumed rest; `none` when neither
the integer nor the fraction part has a digit.  A malformed exponent part is
left unconsumed, as in JS. -/
def parseDecimal (cs : List Char) : Option (ℚ × List Char) :=
  let ri := takeDigits cs
  let rf : List Nat × List Char :=
    match ri.2 with
    | '.' :: cs' => takeDigits cs'
    | _ => ([], ri.2)
  if ri.1 = [] ∧ rf.1 = [] then none
  else
    let mantissa : ℚ := (digitsToNat ri.1 : ℚ) + (digitsToNat rf.1 : ℚ) / (10 : ℚ) ^ rf.1.length
    match rf.2 with
    | e :: cs' =>
      if e = 'e' ∨ e = 'E' then
        let sgn := parseSign cs'
        let re := takeDigits sgn.2
        if re.1 = [] then some (mantissa, rf.2)
        else
          let ev : ℤ := if sgn.1 then -(digitsToNat re.1 : ℤ) else (digitsToNat re.1 : ℤ)
          some (mantissa * (10 : ℚ) ^ ev, re.2)
      else some (mantissa, rf.2)
    | [] => some (mantissa, [])

/-- JS `Number()` applied to a string: trims, the empty string converts to 0,
otherwise the whole string must be a signed decimal literal.  (`Infinity` and
radix-prefixed literals are outside the model.) -/
def strToNumber? (s : String) : Option ℚ :=
  let t := jsTrim s.data
  if t = [] then some 0
  else
    let sgn := parseSign t
    match parseDecimal sgn.2 with
    | some (q, []) => some (if sgn.1 then -q else q)
    | _ => none

/-- JS `parseFloat` on a character sequence: skips leading whitespace, parses
the longest signed decimal prefix, `none` (NaN) when there is none. -/
def parseFloatChars (cs : List Char) : Option ℚ :=
  let t := cs.dropWhile isJsWhitespace
  let sgn := parseSign t
  match parseDecimal sgn.2 with
  | some (q, _) => some (if sgn.1 then -q else q)
  | none => none

/-- JS `parseInt(s, 10)`: skips leading whitespace, optional sign, longest
digit prefix; `none` (NaN) when no digit is found. -/
def parseIntChars (cs : List Char) : Option ℤ :=
  let t := cs.dropWhile isJsWhitespace
  let sgn := parseSign t
  let r := takeDigits sgn.2
  if r.1 = [] then none
  else some (if sgn.1 then -(digitsToNat r.1 : ℤ) else (digitsToNat r.1 : ℤ))

/-- Decimal digits of a natural number, most significant first. -/
def natToChars (n : Nat) : List Char :=
  (Nat.toDigits 10 n)

/-- Decimal representation of an integer. -/
def intToChars (i : ℤ) : List Char :=
  if i < 0 then '-' :: natToChars i.natAbs else natToChars i.natAbs

/-- Gregorian leap-year test. -/
def isLeapYear (y : ℤ) : Bool :=
  (y % 4 = 0 ∧ y % 100 ≠ 0) ∨ y % 400 = 0

/-- Days in a Gregorian month. -/
def daysInMonth (y : ℤ) (m : Nat) : Nat :=
  if m = 2 then (if isLeapYear y then 29 else 28)
  else if m = 4 ∨ m = 6 ∨ m = 9 ∨ m = 11 then 30
  else 31

/-- Days since the Unix epoch of a civil date (proleptic Gregorian). -/
def daysFromCivil (y : ℤ) (m d : Nat) : ℤ :=
  let y' : ℤ := if m ≤ 2 then y - 1 else y
  let era : ℤ := (if 0 ≤ y' then y' else y' - 399) / 400
  let yoe : ℤ := y' - era * 400
  let mp : Nat := (m + 9) % 12
  let doy : ℤ := ((153 * mp + 2) / 5 + d - 1 : Nat)
  let doe : ℤ := yoe * 365 + yoe / 4 - yoe / 100 + doy
  era * 146097 + doe - 719468

/-- Civil date from days since the Unix epoch (proleptic Gregorian). -/
def civilFromDays (z : ℤ) : ℤ × Nat × Nat :=
  let z' := z + 719468
  let era : ℤ := (if 0 ≤ z' then z' else z' - 146096) / 146097
  let doe : Nat := (z' - era * 146097).toNat
  let yoe : Nat := (doe - doe / 1460 + doe / 36524 - doe / 146096) / 365
  let doy : Nat := doe - (365 * yoe + yoe / 4 - yoe / 100)
  let mp : Nat := (5 * doy + 2) / 153
  let d : Nat := doy - (153 * mp + 2) / 5 + 1
  let m : Nat := if mp < 10 then mp + 3 else mp - 9
  ((yoe : ℤ) + era * 400 + (if m ≤ 2 then 1 else 0), m, d)

/-- Milliseconds since the Unix epoch of a broken-down UTC time. -/
def epochMs (t : DTime) : ℤ :=
  daysFromCivil t.year t.month t.day * 86400000
    + (t.hour * 3600000 + t.minute * 60000 + t.second * 1000 + t.ms : Nat)

/-- Broken-down UTC time of a millisecond time value. -/
def dtimeOfMs (t : ℤ) : DTime :=
  let day : ℤ := Int.fdiv t 86400000
  let ofs : Nat := (t - day * 86400000).toNat
  let c := civilFromDays day
  { year := c.1, month := c.2.1, day := c.2.2,
    hour := ofs / 3600000, minute := ofs % 3600000 / 60000,
    second := ofs % 60000 / 1000, ms := ofs % 1000 }

/-- Truncation of a rational toward zero (JS `ToIntegerOrInfinity` on a finite
number). -/
def ratTrunc (q : ℚ) : ℤ :=
  if 0 ≤ q then ⌊q⌋ else ⌈q⌉

/-- Two zero-padded decimal digits (for values below 100). -/
def pad2 (n : Nat) : List Char :=
  [digitChar (n / 10), digitChar (n % 10)]

/-- Three zero-padded decimal digits (for values below 1000). -/
def pad3 (n : Nat) : List Char :=
  [digitChar (n / 100), digitChar (n / 10 % 10), digitChar (n % 10)]

/-- Four zero-padded decimal digits (for values below 10000). -/
def pad4 (n : Nat) : List Char :=
  [digitChar (n / 1000), digitChar (n / 100 % 10), digitChar (n / 10 % 10), digitChar (n % 10)]

/-- Six zero-padded decimal digits, used by the expanded-year ISO form. -/
def pad6 (n : Nat) : List Char :=
  [digitChar (n / 100000), digitChar (n / 10000 % 10), digitChar (n / 1000 % 10),
   digitChar (n / 100 % 10), digitChar (n / 10 % 10), digitChar (n % 10)]

/-- Year field of `toISOString`: four digits for 0..9999, otherwise the
expanded `±YYYYYY` form. -/
def yearChars (y : ℤ) : List Char :=
  if 0 ≤ y ∧ y ≤ 9999 then pad4 y.toNat
  else (if y < 0 then '-' else '+') :: pad6 y.natAbs

/-- Characters of `Date.prototype.toISOString`:
`YYYY-MM-DDTHH:mm:ss.sssZ`. -/
def isoDateTimeChars (t : DTime) : List Char :=
  yearChars t.year ++ '-' :: pad2 t.month ++ '-' :: pad2 t.day
    ++ 'T' :: pad2 t.hour ++ ':' :: pad2 t.minute ++ ':' :: pad2 t.second
    ++ '.' :: pad3 t.ms ++ ['Z']

/-- Characters of `toISOString().split('T')[0]`, the calendar-date part. -/
def isoDateChars (t : DTime) : List Char :=
  (isoDateTimeChars t).takeWhile (· ≠ 'T')

/-- Reads exactly two decimal digits. -/
def read2 : List Char → Option (Nat × List Char)
  | a :: b :: rest =>
    match digitVal? a, digitVal? b with
    | some x, some y => some (10 * x + y, rest)
    | _, _ => none
  | _ => none

/-- Reads exactly three decimal digits. -/
def read3 : List Char → Option (Nat × List Char)
  | a :: b :: c :: rest =>
    match digitVal? a, digitVal? b, digitVal? c with
    | some x, some y, some z => some (100 * x + 10 * y + z, rest)
    | _, _, _ => none
  | _ => none

/-- Reads exactly four decimal digits. -/
def read4 (cs : List Char) : Option (Nat × List Char) :=
  match read2 cs with
  | some (h, r) =>
    match read2 r with
    | some (l, r') => some (100 * h + l, r')
    | none => none
  | none => none

/-- Requires and consumes one specific character. -/
def expectChar (c : Char) : List Char → Option (List Char)
  | x :: xs => if x = c then some xs else none
  | [] => none

/-- Field-range validity of a broken-down time as enforced by the date-string
parser (calendar-valid day, 24-hour clock). -/
def validFields (y : ℤ) (mo da h mi s ms : Nat) : Bool :=
  1 ≤ mo ∧ mo ≤ 12 ∧ 1 ≤ da ∧ da ≤ daysInMonth y mo
    ∧ h ≤ 23 ∧ mi ≤ 59 ∧ s ≤ 59 ∧ ms ≤ 999

/-- Parses the `THH:mm[:ss[.sss]]Z` tail of an ISO date-time string.  Zoneless
forms (interpreted in local time by JS) and offset forms are outside the UTC
model and yield `none`. -/
def parseISOTime (cs : List Char) : Option (Nat × Nat × Nat × Nat) :=
  match read2 cs with
  | none => none
  | some (h, r1) =>
    match expectChar ':' r1 with
    | none => none
    | some r2 =>
      match read2 r2 with
      | none => none
      | some (mi, r3) =>
        match r3 with
        | ['Z'] => some (h, mi, 0, 0)
        | ':' :: r4 =>
          match read2 r4 with
          | none => none
          | some (s, r5) =>
            match r5 with
            | ['Z'] => some (h, mi, s, 0)
            | '.' :: r6 =>
              match read3 r6 with
              | some (ms, ['Z']) => some (h, mi, s, ms)
              | _ => none
            | _ => none
        | _ => none

/-- Parses an ISO `YYYY-MM-DD[THH:mm[:ss[.sss]]Z]` string into a broken-down
UTC time, validating field ranges (modern engines reject e.g. Feb 30).
Expanded-year (`±YYYYYY`) and legacy date formats are outside the model. -/
def parseISO (cs : List Char) : Option DTime :=
  match read4 cs with
  | none => none
  | some (y, r1) =>
    match expectChar '-' r1 with
    | none => none
    | some r2 =>
      match read2 r2 with
      | none => none
      | some (mo, r3) =>
        match expectChar '-' r3 with
        | none => none
        | some r4 =>
          match read2 r4 with
          | none => none
          | some (da, r5) =>
            let mk : Nat → Nat → Nat → Nat → Option DTime := fun h mi s ms =>
              if validFields (y : ℤ) mo da h mi s ms then
                some ⟨(y : ℤ), mo, da, h, mi, s, ms⟩
              else none
            match r5 with
            | [] => mk 0 0 0 0
            | 'T' :: r6 =>
              match parseISOTime r6 with
              | some (h, mi, s, ms) => mk h mi s ms
              | none => none
            | _ => none

/-- Smallest exponent `k ≤ 40` such that `q * 10^k` is an integer, when one
exists.  Numbers arising from JS doubles always have such a finite decimal
expansion. -/
def decExp? (q : ℚ) : Option Nat :=
  (List.range 41).find? (fun k => (q * (10 : ℚ) ^ k).den = 1)

/-- JS `ToString` on a finite number, for numbers with a finite decimal
expansion (the exponent forms used for very large/small magnitudes are outside
the model, as is the non-decimal fallback). -/
def numToString (q : ℚ) : String :=
  match decExp? q with
  | some k =>
    if k = 0 then String.mk (intToChars q.num)
    else
      let n := (|q| * (10 : ℚ) ^ k).num.toNat
      let ds := natToChars n
      let ds := if ds.length ≤ k then List.replicate (k + 1 - ds.length) '0' ++ ds else ds
      let ip := ds.take (ds.length - k)
      let fp := ds.drop (ds.length - k)
      String.mk ((if q < 0 then ['-'] else []) ++ ip ++ '.' :: fp)
  | none => String.mk (intToChars q.num ++ '/' :: natToChars q.den)

mutual
/-- JS `ToString`.  The human-readable `Date` rendering is abstracted by the
ISO rendering; everything else follows the ECMAScript defaults. -/
def jsToString : JSVal → String
  | .null => "null"
  | .undefined => "undefined"
  | .num q => numToString q
  | .nan => "NaN"
  | .bool b => if b then "true" else "false"
  | .str s => s
  | .date none => "Invalid Date"
  | .date (some d) => String.mk (isoDateTimeChars d)
  | .arr xs => String.intercalate "," (jsToStringList xs)
  | .obj _ => "[object Object]"

/-- Element rendering of `Array.prototype.toString` (join): `null` and
`undefined` render as the empty string. -/
def jsToStringList : List JSVal → List String
  | [] => []
  | .null :: xs => "" :: jsToStringList xs
  | .undefined :: xs => "" :: jsToStringList xs
  | x :: xs => jsToString x :: jsToStringList xs
end

/-- JS truthiness (`!!value`). -/
def jsTruthy : JSVal → Bool
  | .null => false
  | .undefined => false
  | .num q => q ≠ 0
  | .nan => false
  | .bool b => b
  | .str s => s ≠ ""
  | .date _ => true
  | .arr _ => true
  | .obj _ => true

/-- JS `Number()` (ToNumber): `none` plays NaN.  A valid `Date` converts to
its millisecond time value; arrays convert through their joined string. -/
def numberJS : JSVal → Option ℚ
  | .null => some 0
  | .undefined => none
  | .num q => some q
  | .nan => none
  | .bool b => some (if b then 1 else 0)
  | .str s => strToNumber? s
  | .date (some d) => some (epochMs d : ℚ)
  | .date none => none
  | .arr xs => strToNumber? (jsToString (.arr xs))
  | .obj _ => none

/-- JS `parseFloat(value)`: converts the argument to a string and parses the
longest numeric prefix.  Numbers round-trip through their string rendering;
the human-readable `Date` rendering never parses. -/
def parseFloatJS : JSVal → Option ℚ
  | .num q => some q
  | .nan => none
  | .date _ => none
  | v => parseFloatChars (jsToString v).data

/-- JS `new Date(value)`: copies `Date` values, parses strings, interprets
numbers (and booleans / `null` through ToNumber) as millisecond time values,
and produces an Invalid Date otherwise.  Arrays convert through their joined
string, as in ToPrimitive. -/
def jsNewDate : JSVal → Option DTime
  | .date d => d
  | .str s => parseISO s.data
  | .num q =>
    let t := ratTrunc q
    if t.natAbs ≤ 8640000000000000 then some (dtimeOfMs t) else none
  | .nan => none
  | .null => some (dtimeOfMs 0)
  | .undefined => none
  | .bool b => some (dtimeOfMs (if b then 1 else 0))
  | .arr xs => parseISO (jsToString (.arr xs)).data
  | .obj _ => none

/-- `isNullable` from `CastingManager.ts`: `value === null || value === undefined`. -/
def isNullable : JSVal → Bool
  | .null => true
  | .undefined => true
  | _ => false

/-- `asNumber` from the source: nullish → `null`; numbers (including NaN) pass
through `typeof value === 'number'`; otherwise `Number(value)`, with NaN
degraded to 0. -/
def asNumber (value : JSVal) : JSVal :=
  if isNullable value then .null
  else
    match value with
    | .num q => .num q
    | .nan => .nan
    | v =>
      match numberJS v with
      | none => .num 0
      | some q => .num q

/-- `toFixed` rounding followed by `Number()` of the produced decimal string
(which parses back exactly): ECMA-262 picks the integer n with n/10^f closest
to q, ties resolved to the larger n, i.e. ⌊q·10^f + 1/2⌋. -/
def toFixedQ (q : ℚ) (f : Nat) : ℚ :=
  ((⌊q * (10 : ℚ) ^ f + 1 / 2⌋ : ℤ) : ℚ) / (10 : ℚ) ^ f

/-- The digits argument of `asDecimal`: `parseInt(params[0] || '2', 10)`, with
NaN becoming 0 through ToIntegerOrInfinity inside `toFixed`. -/
def toFixedDigits (params : List String) : ℤ :=
  let p : String :=
    match params.head? with
    | some s => if s = "" then "2" else s
    | none => "2"
  (parseIntChars p.data).getD 0

/-- `asDecimal` from the source: nullish → `null`; `parseFloat` the value and
degrade NaN to 0; otherwise `Number(num.toFixed(precision))`, where `toFixed`
throws a RangeError when the digits argument is outside 0..100. -/
def asDecimal (value : JSVal) (params : List String) : Except JSErr JSVal :=
  if isNullable value then .ok .null
  else
    let precision := toFixedDigits params
    match parseFloatJS value with
    | none => .ok (.num 0)
    | some q =>
      if precision < 0 ∨ 100 < precision then
        .error (.rangeError "toFixed() digits argument must be between 0 and 100")
      else .ok (.num (toFixedQ q precision.toNat))

/-- `asInteger` from the source: `asDecimal(value, ['0'])`. -/
def asInteger (value : JSVal) : Except JSErr JSVal :=
  asDecimal value ["0"]

/-- `asBoolean` from the source: `!!value`. -/
def asBoolean (value : JSVal) : JSVal :=
  .bool (jsTruthy value)

/-- `asString` from the source: nullish → `null`, otherwise `String(value)`. -/
def asString (value : JSVal) : JSVal :=
  match value with
  | .null => .null
  | .undefined => .null
  | v => .str (jsToString v)

/-- `asDate` from the source: nullish → `null`; `Date` instances (valid or
not) pass through; otherwise `new Date(value)`. -/
def asDate (value : JSVal) : JSVal :=
  if isNullable value then .null
  else
    match value with
    | .date d => .date d
    | v => .date (jsNewDate v)

/-- `asDateTime` from the source (textually identical to `asDate`). -/
def asDateTime (value : JSVal) : JSVal :=
  if isNullable value then .null
  else
    match value with
    | .date d => .date d
    | v => .date (jsNewDate v)

/-- `serializeDate` from the source: nullish → `null`; non-dates are first run
through `new Date(value)`; `toISOString` throws a RangeError on an Invalid
Date, otherwise its `'T'`-prefix is the calendar date string. -/
def serializeDate (value : JSVal) : Except JSErr JSVal :=
  if isNullable value then .ok .null
  else
    let d : Option DTime :=
      match value with
      | .date d => d
      | v => jsNewDate v
    match d with
    | none => .error (.rangeError "Invalid time value")
    | some t => .ok (.str (String.mk (isoDateChars t)))

/-- `serializeDateTime` from the source: as `serializeDate` but with the full
`toISOString` timestamp. -/
def serializeDateTime (value : JSVal) : Except JSErr JSVal :=
  if isNullable value then .ok .null
  else
    let d : Option DTime :=
      match value with
      | .date d => d
      | v => jsNewDate v
    match d with
    | none => .error (.rangeError "Invalid time value")
    | some t => .ok (.str (String.mk (isoDateTimeChars t)))

/-- A cast function stored in the registry: one of the built-ins from
`CastingManager.ts`, or a user-registered function, modelled as a
self-contained function that may throw (callbacks into the registry are
outside the model). -/
inductive CastFn where
  | fnBoolean
  | fnNumber
  | fnInteger
  | fnDecimal
  | fnString
  | fnArray
  | fnDate
  | fnDateTime
  | custom (f : JSVal → List String → Except JSErr JSVal)

/-- A serialize function stored in the registry. -/
inductive SerFn where
  | fnSerArray
  | fnSerDate
  | fnSerDateTime
  | custom (f : JSVal → List String → Except JSErr JSVal)

/-- JS `Map.prototype.set` on an association list: replaces in place or
appends. -/
def mapSet {α : Type} : List (String × α) → String → α → List (String × α)
  | [], k, v => [(k, v)]
  | (k', v') :: rest, k, v =>
    if k' = k then (k, v) :: rest else (k', v') :: mapSet rest k v

/-- JS `Map.prototype.get` on an association list. -/
def mapGet {α : Type} : List (String × α) → String → Option α
  | [], _ => none
  | (k', v') :: rest, k => if k' = k then some v' else mapGet rest k

/-- The two registries of `CastingManager`. -/
structure CastingManager where
  casters : List (String × CastFn)
  serializers : List (String × SerFn)

/-- `CastingManager.register`: stores the caster under the lower-cased name;
stores the serializer only when one is supplied. -/
def CastingManager.register (m : CastingManager) (type : String) (castFn : CastFn)
    (serializeFn : Option SerFn) : CastingManager :=
  let t := asciiLower type
  { casters := mapSet m.casters t castFn
    serializers :=
      match serializeFn with
      | some f => mapSet m.serializers t f
      | none => m.serializers }

/-- The `CastingManager` constructor: registers the built-in coercions. -/
def CastingManager.new : CastingManager :=
  ((((((((({ casters := [], serializers := [] } : CastingManager).register
    "bool" .fnBoolean none).register
    "boolean" .fnBoolean none).register
    "number" .fnNumber none).register
    "integer" .fnInteger none).register
    "decimal" .fnDecimal none).register
    "string" .fnString none).register
    "array" .fnArray (some .fnSerArray)).register
    "date" .fnDate (some .fnSerDate)).register
    "datetime" .fnDateTime (some .fnSerDateTime)

/-- Splits a type specifier into `[type, ...params]` as
`typeSpec.split(':')` does. -/
def parseTypeSpec (spec : String) : String × List String :=
  match jsSplit spec ':' with
  | [] => ("", [])
  | ty :: params => (ty, params)

/-- `Array.isArray` probe, returning the elements when the value is an
array. -/
def asArrayElems? : JSVal → Option (List JSVal)
  | .arr xs => some xs
  | _ => none

/-- The duck-typed `toJSON` probe of `serialize`: plain objects carrying a
`toJSON` capability answer with its result; dates and arrays are excluded by
the source condition and carry no such capability in the model. -/
def toJSONResult? : JSVal → Option JSVal
  | .obj (some j) => some j
  | _ => none

theorem sizeOf_lt_of_elems {v : JSVal} {xs : List JSVal}
    (h : asArrayElems? v = some xs) : sizeOf xs < sizeOf v := by
  cases v <;> simp only [asArrayElems?, Option.some.injEq, reduceCtorEq] at h
  subst h
  rename_i ys
  have hs : sizeOf (JSVal.arr ys) = 1 + sizeOf ys := by simp
  omega

theorem count_splitOnCharAux (sep : Char) :
    ∀ (cs acc : List Char), acc.count sep = 0 →
      ∀ t ∈ splitOnCharAux sep cs acc, t.data.count sep = 0 := by
  intro cs
  induction cs with
  | nil =>
    intro acc hacc t ht
    simp only [splitOnCharAux, List.mem_singleton] at ht
    subst ht
    simpa [List.count_reverse] using hacc
  | cons c cs ih =>
    intro acc hacc t ht
    simp only [splitOnCharAux] at ht
    by_cases hc : c = sep
    · simp only [if_pos hc, List.mem_cons] at ht
      rcases ht with h | h
      · subst h
        simpa [List.count_reverse] using hacc
      · exact ih [] (by simp) t h
    · simp only [if_neg hc, List.mem_cons] at ht
      exact ih (c :: acc) (by simp [List.count_cons, hacc, hc]) t ht

theorem length_splitOnCharAux (sep : Char) :
    ∀ (cs acc : List Char), (splitOnCharAux sep cs acc).length = cs.count sep + 1 := by
  intro cs
  induction cs with
  | nil => intro acc; simp [splitOnCharAux]
  | cons c cs ih =>
    intro acc
    by_cases hc : c = sep
    · simp [splitOnCharAux, hc, ih, List.count_cons]
    · simp [splitOnCharAux, hc, ih, List.count_cons]

/-- Termination data for the `cast` recursion: a parameter segment produced by
splitting a specifier is itself separator-free, and the presence of parameters
witnesses a separator in the specifier. -/
theorem parseTypeSpec_measure {spec ty : String} {params : List String}
    (h : parseTypeSpec spec = (ty, params)) {t : String}
    (ht : params.head? = some t) :
    countSep ':' t = 0 ∧ 1 ≤ countSep ':' spec := by
  cases params with
  | nil => simp at ht
  | cons t0 rest =>
    have ht0 : t = t0 := by simpa using ht.symm
    subst ht0
    have hsplit : jsSplit spec ':' = ty :: t :: rest := by
      unfold parseTypeSpec at h
      rcases hsp : jsSplit spec ':' with _ | ⟨ty', ps⟩ <;> rw [hsp] at h <;> simp_all
    constructor
    · have hmem : t ∈ splitOnCharAux ':' spec.data [] := by
        have hm : t ∈ jsSplit spec ':' := by rw [hsplit]; simp
        simpa [jsSplit] using hm
      exact count_splitOnCharAux ':' spec.data [] (by simp) t hmem
    · have hl := length_splitOnCharAux ':' spec.data []
      have hl2 : (jsSplit spec ':').length = spec.data.count ':' + 1 := by
        simpa [jsSplit] using hl
      rw [hsplit] at hl2
      simp only [List.length_cons] at hl2
      unfold countSep
      omega

/-- Secondary termination measure for `invokeCastFn`. -/
def castParamsMeasure (params : List String) : Nat :=
  match params.head? with
  | some t => 2 * countSep ':' t + 3
  | none => 1

mutual

/-- Invocation of one cast function on a value, with the parameter list from
the specifier.  Returns the console output and the result or thrown
exception.  The `asArray` built-in wraps non-arrays in a singleton and, when
an element type parameter is present and truthy, maps `cast` over the
elements through the same registry (for a wrapped non-array value, that map
is the singleton of casting the value itself). -/
def invokeCastFn (casters : List (String × CastFn)) (f : CastFn) (value : JSVal)
    (params : List String) : List String × Except JSErr JSVal :=
  match f with
  | .fnBoolean => ([], .ok (asBoolean value))
  | .fnNumber => ([], .ok (asNumber value))
  | .fnInteger => ([], asInteger value)
  | .fnDecimal => ([], asDecimal value params)
  | .fnString => ([], .ok (asString value))
  | .fnDate => ([], .ok (asDate value))
  | .fnDateTime => ([], .ok (asDateTime value))
  | .custom g => ([], g value params)
  | .fnArray =>
    match hxs : asArrayElems? value with
    | some xs =>
      match hph : params.head? with
      | some t =>
        if t = "" then ([], .ok (.arr xs))
        else
          let r := castList casters xs t
          (r.1, .ok (.arr r.2))
      | none => ([], .ok (.arr xs))
    | none =>
      match hph : params.head? with
      | some t =>
        if t = "" then ([], .ok (.arr [value]))
        else
          let r := castCore casters value t
          (r.1, .ok (.arr [r.2]))
      | none => ([], .ok (.arr [value]))
termination_by sizeOf value + castParamsMeasure params
decreasing_by
  · have hlt := sizeOf_lt_of_elems hxs
    simp only [castParamsMeasure, hph]
    omega
  · simp only [castParamsMeasure, hph]
    omega

/-- Maps `cast` over the elements of an array, collecting console output. -/
def castList (casters : List (String × CastFn)) (xs : List JSVal) (t : String) :
    List String × List JSVal :=
  match xs with
  | [] => ([], [])
  | x :: rest =>
    let r1 := castCore casters x t
    let r2 := castList casters rest t
    (r1.1 ++ r2.1, r1.2 :: r2.2)
termination_by sizeOf xs + 2 * countSep ':' t + 3
decreasing_by
  · have hs : sizeOf (x :: rest) = 1 + sizeOf x + sizeOf rest := by simp
    omega
  · have hs : sizeOf (x :: rest) = 1 + sizeOf x + sizeOf rest := by simp
    omega

/-- `CastingManager.cast` over an explicit casters registry: parses the
specifier, looks up the caster by lower-cased name (missing caster: report
and return the value unchanged), and invokes it under a try/catch that
reports and returns the value unchanged on a thrown exception. -/
def castCore (casters : List (String × CastFn)) (value : JSVal) (typeSpec : String) :
    List String × JSVal :=
  match hps : parseTypeSpec typeSpec with
  | (ty, params) =>
    match mapGet casters (asciiLower ty) with
    | none => (["No caster found for type: " ++ ty], value)
    | some f =>
      match invokeCastFn casters f value params with
      | (logs, .ok w) => (logs, w)
      | (logs, .error _) => (logs ++ ["Error casting value to " ++ ty ++ ":"], value)
termination_by sizeOf value + 2 * countSep ':' typeSpec + 2
decreasing_by
  · rcases hh : params.head? with _ | t
    · simp only [castParamsMeasure, hh]
      omega
    · obtain ⟨h0, h1⟩ := parseTypeSpec_measure hps hh
      simp only [castParamsMeasure, hh]
      omega

end

mutual

/-- Invocation of one serialize function.  The registered `serializeArray`
turns non-arrays into `[]` and, when a truthy element type parameter is
present, maps `serialize` over the elements; element exceptions escape the
function (and are then caught by the caller's try/catch). -/
def invokeSerFn (serializers : List (String × SerFn)) (f : SerFn) (value : JSVal)
    (params : List String) : List String × Except JSErr JSVal :=
  match f with
  | .fnSerDate => ([], serializeDate value)
  | .fnSerDateTime => ([], serializeDateTime value)
  | .custom g => ([], g value params)
  | .fnSerArray =>
    match hxs : asArrayElems? value with
    | some xs =>
      match params.head? with
      | some t =>
        if t = "" then ([], .ok (.arr xs))
        else
          let r := serializeList serializers xs (some t)
          (r.1, r.2.map .arr)
      | none => ([], .ok (.arr xs))
    | none => ([], .ok (.arr []))
termination_by (sizeOf value, 1)
decreasing_by
  · apply Prod.Lex.left
    exact sizeOf_lt_of_elems hxs

/-- Maps `serialize` over array elements; the first thrown exception aborts
the map (as a JS exception aborts `Array.prototype.map`), keeping the console
output already produced. -/
def serializeList (serializers : List (String × SerFn)) (xs : List JSVal)
    (t : Option String) : List String × Except JSErr (List JSVal) :=
  match xs with
  | [] => ([], .ok [])
  | x :: rest =>
    let r1 := serializeCore serializers x t
    match r1.2 with
    | .error e => (r1.1, .error e)
    | .ok w =>
      let r2 := serializeList serializers rest t
      (r1.1 ++ r2.1, r2.2.map (fun ws => w :: ws))
termination_by (sizeOf xs, 0)
decreasing_by
  · apply Prod.Lex.left
    have hs : sizeOf (x :: rest) = 1 + sizeOf x + sizeOf rest := by simp
    omega
  · apply Prod.Lex.left
    have hs : sizeOf (x :: rest) = 1 + sizeOf x + sizeOf rest := by simp
    omega

/-- Serializer resolution after the array fast path: missing serializer logs
an informational message and returns the value unchanged; a found serializer
runs under a try/catch that reports and returns the value unchanged on a
thrown exception. -/
def serializeResolve (serializers : List (String × SerFn)) (value : JSVal)
    (ty : String) (params : List String) : List String × Except JSErr JSVal :=
  match mapGet serializers (asciiLower ty) with
  | none => (["No registered serializer for " ++ ty ++ ". Returning value as is."], .ok value)
  | some f =>
    match invokeSerFn serializers f value params with
    | (logs, .ok w) => (logs, .ok w)
    | (logs, .error _) => (logs ++ ["Error serializing value from " ++ ty ++ ":"], .ok value)
termination_by (sizeOf value, 2)
decreasing_by
  · apply Prod.Lex.right
    omega

/-- `CastingManager.serialize` over an explicit serializers registry.  The
specifier is optional because the array fast path recurses with `params[0]`,
which is `undefined` when the specifier has no parameter; splitting an
`undefined` specifier throws a TypeError.  Values exposing `toJSON` (other
than dates and arrays) short-circuit to its result before the specifier is
touched.  The fast path `type === 'array' && Array.isArray(value)` maps
`serialize` over the elements outside any try/catch. -/
def serializeCore (serializers : List (String × SerFn)) (value : JSVal)
    (typeSpec : Option String) : List String × Except JSErr JSVal :=
  match toJSONResult? value with
  | some j => ([], .ok j)
  | none =>
    match typeSpec with
    | none => ([], .error (.typeError "Cannot read properties of undefined (reading 'split')"))
    | some spec =>
      match parseTypeSpec spec with
      | (ty, params) =>
        match hxs : asArrayElems? value with
        | some xs =>
          if ty = "array" then
            let r := serializeList serializers xs params.head?
            (r.1, r.2.map .arr)
          else serializeResolve serializers value ty params
        | none => serializeResolve serializers value ty params
termination_by (sizeOf value, 3)
decreasing_by
  · apply Prod.Lex.left
    exact sizeOf_lt_of_elems hxs
  · apply Prod.Lex.right
    omega
  · apply Prod.Lex.right
    omega

end

/-- `CastingManager.cast`. -/
def CastingManager.cast (m : CastingManager) (value : JSVal) (typeSpec : String) :
    List String × JSVal :=
  castCore m.casters value typeSpec

/-- `CastingManager.serialize` (public entry point; callers always pass a
string specifier). -/
def CastingManager.serialize (m : CastingManager) (value : JSVal) (typeSpec : String) :
    List String × Except JSErr JSVal :=
  serializeCore m.serializers value (some typeSpec)

/-- Modelled from the spec: `hasCaster`, referenced by the class builder but
not defined in the available sources, is a presence check in the casters
registry (name lookup is case-insensitive per the spec). -/
def CastingManager.hasCaster (m : CastingManager) (type : String) : Bool :=
  (mapGet m.casters (asciiLower type)).isSome

/-- Prototype methods installed by the built-in mixins, each closing over the
field name fixed at application time. -/
inductive ProtoMethod where
  | touchM (updatedAtField : String)
  | deleteM (deletedAtField : String)
  | restoreM (deletedAtField : String)
  | isDeletedM (deletedAtField : String)
deriving DecidableEq, Repr

/-- The prototype state of a class under composition: the declared property
types (`_propertyTypes`, consulted by the generated `_cast_<prop>` methods)
and the mixin-installed methods.  The generated accessors themselves are
represented semantically by `setProp`/`getProp` below. -/
structure Shape where
  propTypes : List (String × String)
  methods : List (String × ProtoMethod)
deriving DecidableEq, Repr

/-- A freshly declared class, before any fields or mixins. -/
def Shape.empty : Shape :=
  ⟨[], []⟩

/-- Option bags passed to the built-in mixins (duck-typed in JS; absent
fields read as `undefined`). -/
structure TraitOptions where
  createdAtField : Option String
  updatedAtField : Option String
  deletedAtField : Option String
deriving DecidableEq, Repr

/-- An options bag with no fields set. -/
def TraitOptions.empty : TraitOptions :=
  ⟨none, none, none⟩

/-- `options?.field || 'default'`: absent or falsy (empty) strings fall back
to the default. -/
def optField (o : Option String) (dflt : String) : String :=
  match o with
  | some s => if s = "" then dflt else s
  | none => dflt

/-- `applyPropsToClass` restricted to its observable effect on the prototype
state: records each property's type specifier (the accessors and
`_cast_<prop>` helpers it installs are modelled by `setProp`/`getProp`). -/
def applyPropsToClass (sh : Shape) (props : List (String × String)) : Shape :=
  { sh with propTypes := props.foldl (fun pt p => mapSet pt p.1 p.2) sh.propTypes }

/-- The `timestamps` mixin: declares the two date fields and installs
`touch()`, which stamps the updated-at field with the current time.  (Its
wrapping of `fill` is vacuous for `BaseModel`-derived classes, which define
no `fill`.) -/
def timestampsMixin (sh : Shape) (options : TraitOptions) : Shape :=
  let createdAtField := optField options.createdAtField "created_at"
  let updatedAtField := optField options.updatedAtField "updated_at"
  let sh' := applyPropsToClass sh [(createdAtField, "date"), (updatedAtField, "date")]
  { sh' with methods := mapSet sh'.methods "touch" (.touchM updatedAtField) }

/-- The `softDelete` mixin: declares the deleted-at date field and installs
`delete()`, `restore()` and `isDeleted()`. -/
def softDeleteMixin (sh : Shape) (options : TraitOptions) : Shape :=
  let deletedAtField := optField options.deletedAtField "deleted_at"
  let sh' := applyPropsToClass sh [(deletedAtField, "date")]
  let ms1 := mapSet sh'.methods "delete" (.deleteM deletedAtField)
  let ms2 := mapSet ms1 "restore" (.restoreM deletedAtField)
  let ms3 := mapSet ms2 "isDeleted" (.isDeletedM deletedAtField)
  { sh' with methods := ms3 }

/-- The built-in mixin bodies known to the model. -/
inductive MixinFn where
  | timestampsFn
  | softDeleteFn
deriving DecidableEq, Repr

/-- The `ClassBuilder`: a casting manager and the mixin registry. -/
structure ClassBuilder where
  castingManager : CastingManager
  mixins : List (String × MixinFn)

/-- Dispatches a registered mixin body. -/
def runMixin (f : MixinFn) (sh : Shape) (options : TraitOptions) : Shape :=
  match f with
  | .timestampsFn => timestampsMixin sh options
  | .softDeleteFn => softDeleteMixin sh options

/-- `ClassBuilder.apply`: looks up the mixin by name and throws
`Error("Mixin '<name>' not found")` when absent — before any mutation, so the
class is returned unchanged alongside the error.  (The newer builder's `add`
throws the identical error.) -/
def ClassBuilder.apply (b : ClassBuilder) (sh : Shape) (mixinName : String)
    (options : TraitOptions) : Except JSErr Unit × Shape :=
  match mapGet b.mixins mixinName with
  | none => (.error (.genericError ("Mixin '" ++ mixinName ++ "' not found")), sh)
  | some f => (.ok (), runMixin f sh options)

/-- Per-instance state: the `_data` attribute store and any plain own
properties created by assigning to undeclared names. -/
structure Inst where
  data : List (String × JSVal)
  own : List (String × JSVal)

/-- A freshly constructed instance with no attributes. -/
def Inst.empty : Inst :=
  ⟨[], []⟩

/-- `BaseModel.castAttribute` under the generated `_cast_<prop>` methods: a
declared property of a type other than `any` is cast through the manager when
the manager has a caster for that type, otherwise the value is stored raw.
Console output of the cast is not tracked at the instance level. -/
def castAttribute (cm : CastingManager) (sh : Shape) (key : String) (v : JSVal) : JSVal :=
  match mapGet sh.propTypes key with
  | some ty => if ty ≠ "any" ∧ cm.hasCaster ty then (cm.cast v ty).2 else v
  | none => v

/-- Property assignment `this[key] = v`: a declared property routes through
the generated setter (`setAttribute`, hence `castAttribute`) into `_data`;
an undeclared name becomes a plain own property. -/
def setProp (cm : CastingManager) (sh : Shape) (st : Inst) (key : String) (v : JSVal) : Inst :=
  match mapGet sh.propTypes key with
  | some _ => { st with data := mapSet st.data key (castAttribute cm sh key v) }
  | none => { st with own := mapSet st.own key v }

/-- Property read `this[key]`: a declared property routes through
`getAttribute`, which lazily initializes an undefined attribute to `null`
(through the caster) before returning it. -/
def getProp (cm : CastingManager) (sh : Shape) (st : Inst) (key : String) : JSVal × Inst :=
  match mapGet sh.propTypes key with
  | some _ =>
    match mapGet st.data key with
    | some v => (v, st)
    | none =>
      let w := castAttribute cm sh key .null
      (w, { st with data := mapSet st.data key w })
  | none => ((mapGet st.own key).getD .undefined, st)

/-- Runs a mixin-installed method on an instance.  `delete()` stamps the
deleted-at field and then probes `typeof this.touch === 'function'` at call
time, invoking whatever the shape stores under `touch` when present;
`restore()` clears the field and probes the same way; `isDeleted()` only
reads.  The fuel bounds call depth (JS overflows the stack on method tables
that reach themselves). -/
def runMethod (cm : CastingManager) (sh : Shape) (now : DTime) :
    Nat → ProtoMethod → Inst → Option Inst
  | 0, _, _ => none
  | Nat.succ fuel, m, st =>
    match m with
    | .touchM f => some (setProp cm sh st f (.date (some now)))
    | .deleteM f =>
      let st1 := setProp cm sh st f (.date (some now))
      match mapGet sh.methods "touch" with
      | some tm => runMethod cm sh now fuel tm st1
      | none => some st1
    | .restoreM f =>
      let st1 := setProp cm sh st f .null
      match mapGet sh.methods "touch" with
      | some tm => runMethod cm sh now fuel tm st1
      | none => some st1
    | .isDeletedM f => some (getProp cm sh st f).2

/-- Calls a method of the shape by name (`instance.method()`). -/
def callMethod (cm : CastingManager) (sh : Shape) (now : DTime) (fuel : Nat)
    (name : String) (st : Inst) : Option Inst :=
  match mapGet sh.methods name with
  | some m => runMethod cm sh now fuel m st
  | none => none

/-- Rounding to `f` fractional digits half-away-from-zero, following the
words of the spec's decimal-rounding property; to be compared against the
source's `toFixed` rounding (`toFixedQ`), which resolves ties toward positive
infinity instead. -/
def roundHalfAwayFromZero (q : ℚ) (f : Nat) : ℚ :=
  if 0 ≤ q then ((⌊q * (10 : ℚ) ^ f + 1 / 2⌋ : ℤ) : ℚ) / (10 : ℚ) ^ f
  else -(((⌊-q * (10 : ℚ) ^ f + 1 / 2⌋ : ℤ) : ℚ) / (10 : ℚ) ^ f)

/-- The composition checked by the round-trip law: serialize, then cast the
produced plain value back under the same specifier (console output ignored);
`none` when serialization threw. -/
def roundtrip (m : CastingManager) (v : JSVal) (ty : String) : Option JSVal :=
  match m.serialize v ty with
  | (_, .ok w) => some ((m.cast w ty).2)
  | (_, .error _) => none

/-- Well-formedness of a broken-down time for the round-trip law: field
ranges are calendar-valid and the year is in the four-digit ISO range. -/
def validDTime (d : DTime) : Bool :=
  0 ≤ d.year ∧ d.year ≤ 9999 ∧ 1 ≤ d.month ∧ d.month ≤ 12 ∧ 1 ≤ d.day
    ∧ d.day ≤ daysInMonth d.year d.month ∧ d.hour ≤ 23 ∧ d.minute ≤ 59
    ∧ d.second ≤ 59 ∧ d.ms ≤ 999

theorem mapGet_mapSet_self {α : Type} (l : List (String × α)) (k : String) (v : α) :
    mapGet (mapSet l k v) k = some v := by
  induction l with
  | nil => simp [mapSet, mapGet]
  | cons p rest ih =>
    by_cases h : p.1 = k
    · simp [mapSet, mapGet, h]
    · simp [mapSet, mapGet, h, ih]

theorem mapGet_mapSet_ne {α : Type} (l : List (String × α)) (k k' : String) (v : α)
    (h : k' ≠ k) : mapGet (mapSet l k v) k' = mapGet l k' := by
  induction l with
  | nil =>
    have hne : ¬k = k' := fun hh => h hh.symm
    simp [mapSet, mapGet, hne]
  | cons p rest ih =>
    by_cases hp : p.1 = k
    · subst hp
      have hne : ¬p.1 = k' := fun hh => h hh.symm
      simp [mapSet, mapGet, hne]
    · simp only [mapSet, if_neg hp]
      by_cases hk : p.1 = k'
      · simp [mapGet, hk]
      · simp [mapGet, hk, ih]

theorem castList_snd_eq_map (cs : List (String × CastFn)) (xs : List JSVal) (t : String) :
    (castList cs xs t).2 = xs.map (fun x => (castCore cs x t).2) := by
  induction xs with
  | nil => simp [castList]
  | cons x rest ih => simp [castList, ih]

theorem cast_new_date_passthrough (d : Option DTime) :
    CastingManager.new.cast (.date d) "date" = ([], .date d) := by
  have hp : parseTypeSpec "date" = ("date", []) := by rfl
  have hm : mapGet CastingManager.new.casters (asciiLower "date")
      = some CastFn.fnDate := by rfl
  simp [CastingManager.cast, castCore, hp, hm, invokeCastFn, asDate, isNullable]

theorem digitVal?_digitChar (k : Nat) (h : k < 10) : digitVal? (digitChar k) = some k := by
  interval_cases k <;> decide

theorem digitChar_ne_T (k : Nat) : digitChar k ≠ 'T' := by
  rcases Nat.lt_or_ge k 10 with h | h
  · interval_cases k <;> decide
  · obtain ⟨m, rfl⟩ : ∃ m, k = m + 10 := ⟨k - 10, by omega⟩
    show digitChar (m + 10) ≠ 'T'
    exact fun hc => by cases hc

theorem takeWhile_append_eq (p : Char → Bool) (l1 l2 : List Char)
    (h : ∀ x ∈ l1, p x = true) :
    (l1 ++ l2).takeWhile p = l1 ++ l2.takeWhile p := by
  induction l1 with
  | nil => simp
  | cons a rest ih =>
    have ha : p a = true := h a (by simp)
    simp [List.takeWhile_cons, ha, ih (fun x hx => h x (by simp [hx]))]

theorem takeWhile_iso (p : Char → Bool) (y mo da : Nat) (rest : List Char)
    (hdig : ∀ k, p (digitChar k) = true) (hdash : p '-' = true) (hT : p 'T' = false) :
    (pad4 y ++ '-' :: (pad2 mo ++ '-' :: (pad2 da ++ 'T' :: rest))).takeWhile p
      = pad4 y ++ '-' :: (pad2 mo ++ '-' :: pad2 da) := by
  have h4 : ∀ x ∈ pad4 y, p x = true := by
    intro x hx
    simp [pad4] at hx
    rcases hx with h | h | h | h <;> (subst h; exact hdig _)
  have h2 : ∀ m : Nat, ∀ x ∈ pad2 m, p x = true := by
    intro m x hx
    simp [pad2] at hx
    rcases hx with h | h <;> (subst h; exact hdig _)
  have hTn : ¬p 'T' = true := by simp [hT]
  rw [takeWhile_append_eq _ _ _ h4]
  rw [List.takeWhile_cons_of_pos hdash]
  rw [takeWhile_append_eq _ _ _ (h2 mo)]
  rw [List.takeWhile_cons_of_pos hdash]
  rw [takeWhile_append_eq _ _ _ (h2 da)]
  rw [List.takeWhile_cons_of_neg hTn]
  simp

theorem isoDateChars_eq (d : DTime) (h0 : 0 ≤ d.year) (h1 : d.year ≤ 9999) :
    isoDateChars d = pad4 d.year.toNat ++ '-' :: (pad2 d.month ++ '-' :: pad2 d.day) := by
  unfold isoDateChars isoDateTimeChars yearChars
  rw [if_pos ⟨h0, h1⟩]
  have hstep :
      (pad4 d.year.toNat ++ '-' :: pad2 d.month ++ '-' :: pad2 d.day
          ++ 'T' :: pad2 d.hour ++ ':' :: pad2 d.minute ++ ':' :: pad2 d.second
          ++ '.' :: pad3 d.ms ++ ['Z'])
        = pad4 d.year.toNat ++ '-' :: (pad2 d.month ++ '-' :: (pad2 d.day
            ++ 'T' :: (pad2 d.hour ++ ':' :: pad2 d.minute ++ ':' :: pad2 d.second
              ++ '.' :: pad3 d.ms ++ ['Z']))) := by
    simp
  rw [hstep]
  exact takeWhile_iso _ _ _ _ _ (fun k => by simp [digitChar_ne_T]) (by decide) (by decide)

theorem read2_pad2 (n : Nat) (h : n < 100) (r : List Char) :
    read2 (pad2 n ++ r) = some (n, r) := by
  have h1 : n / 10 < 10 := by omega
  have h2 : n % 10 < 10 := by omega
  simp [pad2, read2, digitVal?_digitChar _ h1, digitVal?_digitChar _ h2]
  omega

theorem read2_pad2_nil (n : Nat) (h : n < 100) : read2 (pad2 n) = some (n, []) := by
  have := read2_pad2 n h []
  simpa using this

theorem read3_pad3 (n : Nat) (h : n < 1000) (r : List Char) :
    read3 (pad3 n ++ r) = some (n, r) := by
  have h1 : n / 100 < 10 := by omega
  have h2 : n / 10 % 10 < 10 := by omega
  have h3 : n % 10 < 10 := by omega
  simp [pad3, read3, digitVal?_digitChar _ h1, digitVal?_digitChar _ h2,
    digitVal?_digitChar _ h3]
  omega

theorem pad4_eq (n : Nat) : pad4 n = pad2 (n / 100) ++ pad2 (n % 100) := by
  have e1 : n / 100 / 10 = n / 1000 := by omega
  have e3 : n % 100 / 10 = n / 10 % 10 := by omega
  have e4 : n % 100 % 10 = n % 10 := by omega
  simp [pad4, pad2, e1, e3, e4]

theorem read4_pad4 (n : Nat) (h : n < 10000) (r : List Char) :
    read4 (pad4 n ++ r) = some (n, r) := by
  rw [pad4_eq]
  have hassoc : pad2 (n / 100) ++ pad2 (n % 100) ++ r
      = pad2 (n / 100) ++ (pad2 (n % 100) ++ r) := by simp
  rw [hassoc]
  simp [read4, read2_pad2 (n / 100) (by omega), read2_pad2 (n % 100) (by omega)]
  omega

theorem daysInMonth_le (y : ℤ) (m : Nat) : daysInMonth y m ≤ 31 := by
  unfold daysInMonth
  split
  · split <;> omega
  · split <;> omega

theorem parseISO_isoDateTimeChars (d : DTime) (h : validDTime d = true) :
    parseISO (isoDateTimeChars d) = some d := by
  obtain ⟨y, mo, da, hh, mi, ss, ms⟩ := d
  simp only [validDTime, decide_eq_true_eq] at h
  obtain ⟨h0, h1, h2, h3, h4, h5, h6, h7, h8, h9⟩ := h
  have hdm := daysInMonth_le y mo
  have hy : ((y.toNat : ℤ)) = y := Int.toNat_of_nonneg h0
  have e4 := fun r => read4_pad4 y.toNat (by omega) r
  have emo := fun r => read2_pad2 mo (by omega) r
  have eda := fun r => read2_pad2 da (by omega) r
  have ehh := fun r => read2_pad2 hh (by omega) r
  have emi := fun r => read2_pad2 mi (by omega) r
  have ess := fun r => read2_pad2 ss (by omega) r
  have ems := fun r => read3_pad3 ms (by omega) r
  have hvf : validFields (y : ℤ) mo da hh mi ss ms = true := by
    simp only [validFields, decide_eq_true_eq]
    omega
  show parseISO (isoDateTimeChars ⟨y, mo, da, hh, mi, ss, ms⟩) = _
  unfold isoDateTimeChars yearChars
  rw [if_pos ⟨h0, h1⟩]
  simp only [List.cons_append, List.append_assoc]
  simp [parseISO, parseISOTime, e4, emo, eda, ehh, emi, ess, ems, expectChar, hy, hvf]

theorem parseISO_isoDateChars (d : DTime) (h : validDTime d = true)
    (hh0 : d.hour = 0) (hm0 : d.minute = 0) (hs0 : d.second = 0) (hms0 : d.ms = 0) :
    parseISO (isoDateChars d) = some d := by
  obtain ⟨y, mo, da, hh, mi, ss, ms⟩ := d
  simp only at hh0 hm0 hs0 hms0
  subst hh0 hm0 hs0 hms0
  simp only [validDTime, decide_eq_true_eq] at h
  obtain ⟨h0, h1, h2, h3, h4, h5, h6, h7, h8, h9⟩ := h
  have hdm := daysInMonth_le y mo
  have hy : ((y.toNat : ℤ)) = y := Int.toNat_of_nonneg h0
  have e4 := fun r => read4_pad4 y.toNat (by omega) r
  have emo := fun r => read2_pad2 mo (by omega) r
  have eda0 := read2_pad2_nil da (by omega)
  have hvf : validFields (y : ℤ) mo da 0 0 0 0 = true := by
    simp only [validFields, decide_eq_true_eq]
    omega
  rw [isoDateChars_eq ⟨y, mo, da, 0, 0, 0, 0⟩ h0 h1]
  simp [parseISO, e4, emo, eda0, expectChar, hy, hvf]

/-- C1: for every value and every type specifier, `cast` never propagates an
exception: with no caster registered under the lower-cased type name it
reports the condition and returns the value unchanged; when the registered
cast function throws it catches, reports, and returns the value unchanged;
and a successful cast returns the function's result.  (`cast`'s result type
carries no exception by construction, mirroring the source's try/catch; the
branches pin down the two failure modes.) -/
theorem claim_C1_cast_never_propagates
    (m : CastingManager) (v : JSVal) (s : String) (ty : String) (params : List String)
    (hs : parseTypeSpec s = (ty, params)) :
    (mapGet m.casters (asciiLower ty) = none →
      m.cast v s = (["No caster found for type: " ++ ty], v)) ∧
    (∀ f logs e, mapGet m.casters (asciiLower ty) = some f →
      invokeCastFn m.casters f v params = (logs, .error e) →
      m.cast v s = (logs ++ ["Error casting value to " ++ ty ++ ":"], v)) ∧
    (∀ f logs w, mapGet m.casters (asciiLower ty) = some f →
      invokeCastFn m.casters f v params = (logs, .ok w) →
      m.cast v s = (logs, w)) := by
  refine ⟨fun h => ?_, fun f logs e hf hi => ?_, fun f logs w hf hi => ?_⟩ <;>
    simp [CastingManager.cast, castCore, hs, *]

/-- Witness for C1: a missing caster (`unknowntype`) and a throwing caster
(`decimal:-1` makes `toFixed` throw a RangeError) both return the value
unchanged with a report. -/
theorem claim_C1_cast_never_propagates_witness :
    CastingManager.new.cast (.num 5) "unknowntype"
      = (["No caster found for type: " ++ "unknowntype"], .num 5) ∧
    CastingManager.new.cast (.num 5) "decimal:-1"
      = ([] ++ ["Error casting value to " ++ "decimal" ++ ":"], .num 5) := by
  constructor
  · exact (claim_C1_cast_never_propagates CastingManager.new (.num 5) "unknowntype"
      "unknowntype" [] (by rfl)).1 (by rfl)
  · refine (claim_C1_cast_never_propagates CastingManager.new (.num 5) "decimal:-1"
      "decimal" ["-1"] (by rfl)).2.1 .fnDecimal []
      (.rangeError "toFixed() digits argument must be between 0 and 100") (by rfl) ?_
    simp [invokeCastFn, asDecimal, isNullable, parseFloatJS, toFixedDigits,
      parseIntChars, parseSign, takeDigits, digitVal?, digitsToNat, List.dropWhile,
      isJsWhitespace]

/-- C4: the plain numeric cast distinguishes absent from uncoercible input:
nullish input yields `null`; any non-nullish, non-number input that does not
convert to a number yields `0`; numbers pass through, and `"123"` parses. -/
theorem claim_C4_number_asymmetry :
    (CastingManager.new.cast .null "number" = ([], .null)) ∧
    (CastingManager.new.cast .undefined "number" = ([], .null)) ∧
    (∀ q : ℚ, CastingManager.new.cast (.num q) "number" = ([], .num q)) ∧
    (CastingManager.new.cast (.str "123") "number" = ([], .num 123)) ∧
    (CastingManager.new.cast (.num 456) "number" = ([], .num 456)) ∧
    (∀ v : JSVal, isNullable v = false → (∀ q : ℚ, v ≠ .num q) → v ≠ .nan →
      numberJS v = none → CastingManager.new.cast v "number" = ([], .num 0)) := by
  have hp : parseTypeSpec "number" = ("number", []) := by rfl
  have hm : mapGet CastingManager.new.casters (asciiLower "number") = some CastFn.fnNumber := by
    rfl
  have hcast : ∀ v : JSVal, CastingManager.new.cast v "number" = ([], asNumber v) := by
    intro v
    simp only [CastingManager.cast, castCore, hp, hm, invokeCastFn]
  refine ⟨?_, ?_, ?_, ?_, ?_, ?_⟩
  · rw [hcast]
    rfl
  · rw [hcast]
    rfl
  · intro q
    rw [hcast]
    simp [asNumber, isNullable]
  · rw [hcast]
    have hn : numberJS (.str "123") = some 123 := by
      simp [numberJS, strToNumber?, jsTrim, isJsWhitespace, parseSign, parseDecimal,
        takeDigits, digitVal?, digitsToNat, List.dropWhile]
    simp [asNumber, isNullable, hn]
  · rw [hcast]
    simp [asNumber, isNullable]
  · intro v h1 h2 h3 h4
    rw [hcast]
    cases v with
    | null => simp [isNullable] at h1
    | undefined => simp [isNullable] at h1
    | num q => exact absurd rfl (h2 q)
    | nan => exact absurd rfl h3
    | bool b => simp [asNumber, isNullable, h4]
    | str s => simp [asNumber, isNullable, h4]
    | date d => simp [asNumber, isNullable, h4]
    | arr xs => simp [asNumber, isNullable, h4]
    | obj o => simp [asNumber, isNullable, h4]

/-- Witness for C4: `"abc"` is present but uncoercible and casts to 0. -/
theorem claim_C4_number_asymmetry_witness :
    CastingManager.new.cast (.str "abc") "number" = ([], .num 0) := by
  refine claim_C4_number_asymmetry.2.2.2.2.2 (.str "abc") (by rfl) ?_ (by simp) ?_
  · intro q
    simp
  · simp [numberJS, strToNumber?, jsTrim, isJsWhitespace, parseSign, parseDecimal,
      takeDigits, digitVal?, List.dropWhile]

/-- C2 (failing evaluation): the spec promises serialize never propagates,
but the array fast path maps `serialize` over the elements with `params[0]`,
which is `undefined` for the bare `"array"` specifier, and the element call
then throws a TypeError reading `.split` of `undefined` — outside any
try/catch, so it propagates to the caller. -/
theorem claim_C2_serialize_throws_on_bare_array_spec :
    CastingManager.new.serialize (.arr [.num 1]) "array"
      = ([], .error (.typeError "Cannot read properties of undefined (reading 'split')")) := by
  have hp : parseTypeSpec "array" = ("array", []) := by rfl
  simp [CastingManager.serialize, serializeCore, serializeList, toJSONResult?,
    asArrayElems?, hp, Except.map]

/-- Counterexample to C3 as stated: applying SoftDelete first and Timestamps
second, then calling `delete()`, stamps both the delete marker and the
updated-at field — the `touch` probe runs at call time and finds the method
Timestamps installed, contradicting the claimed silent skip. -/
theorem claim_C3_counterexample :
    callMethod CastingManager.new
      (runMixin .timestampsFn (runMixin .softDeleteFn Shape.empty TraitOptions.empty)
        TraitOptions.empty)
      ⟨2023, 5, 15, 12, 0, 0, 0⟩ 5 "delete" Inst.empty
      = some ⟨[("deleted_at", .date (some ⟨2023, 5, 15, 12, 0, 0, 0⟩)),
              ("updated_at", .date (some ⟨2023, 5, 15, 12, 0, 0, 0⟩))], []⟩ ∧
    mapGet [("deleted_at", JSVal.date (some ⟨2023, 5, 15, 12, 0, 0, 0⟩)),
            ("updated_at", JSVal.date (some ⟨2023, 5, 15, 12, 0, 0, 0⟩))] "updated_at"
      = some (.date (some ⟨2023, 5, 15, 12, 0, 0, 0⟩)) := by
  constructor
  · have hhc : CastingManager.new.hasCaster "date" = true := by rfl
    simp [callMethod, runMixin, timestampsMixin, softDeleteMixin, applyPropsToClass,
      optField, mapSet, mapGet, runMethod, setProp, castAttribute, hhc,
      cast_new_date_passthrough, Shape.empty, TraitOptions.empty, Inst.empty]
  · rfl

/-- C3 amended: the `touch` probe in `delete()` runs at call time, so trait
order does not matter for calls made after composition: with SoftDelete alone
`delete()` stamps the delete marker and silently skips the touch side
effect (the probe finds nothing), while with SoftDelete and Timestamps both
applied — in either order — `delete()` stamps the marker and refreshes the
updated-at field. -/
theorem claim_C3_probe_is_call_time (now : DTime) :
    (callMethod CastingManager.new (runMixin .softDeleteFn Shape.empty TraitOptions.empty)
        now 5 "delete" Inst.empty
      = some ⟨[("deleted_at", .date (some now))], []⟩) ∧
    (callMethod CastingManager.new
        (runMixin .timestampsFn (runMixin .softDeleteFn Shape.empty TraitOptions.empty)
          TraitOptions.empty) now 5 "delete" Inst.empty
      = some ⟨[("deleted_at", .date (some now)), ("updated_at", .date (some now))], []⟩) ∧
    (callMethod CastingManager.new
        (runMixin .softDeleteFn (runMixin .timestampsFn Shape.empty TraitOptions.empty)
          TraitOptions.empty) now 5 "delete" Inst.empty
      = some ⟨[("deleted_at", .date (some now)), ("updated_at", .date (some now))], []⟩) := by
  have hhc : CastingManager.new.hasCaster "date" = true := by rfl
  refine ⟨?_, ?_, ?_⟩ <;>
    simp [callMethod, runMixin, timestampsMixin, softDeleteMixin, applyPropsToClass,
      optField, mapSet, mapGet, runMethod, setProp, castAttribute, hhc,
      cast_new_date_passthrough, Shape.empty, TraitOptions.empty, Inst.empty]

/-- Witness for C3 amended: the three composition scenarios at a concrete
call time. -/
theorem claim_C3_probe_is_call_time_witness :
    (callMethod CastingManager.new (runMixin .softDeleteFn Shape.empty TraitOptions.empty)
        ⟨2024, 1, 2, 3, 4, 5, 6⟩ 5 "delete" Inst.empty
      = some ⟨[("deleted_at", .date (some ⟨2024, 1, 2, 3, 4, 5, 6⟩))], []⟩) ∧
    (callMethod CastingManager.new
        (runMixin .softDeleteFn (runMixin .timestampsFn Shape.empty TraitOptions.empty)
          TraitOptions.empty) ⟨2024, 1, 2, 3, 4, 5, 6⟩ 5 "delete" Inst.empty
      = some ⟨[("deleted_at", .date (some ⟨2024, 1, 2, 3, 4, 5, 6⟩)),
              ("updated_at", .date (some ⟨2024, 1, 2, 3, 4, 5, 6⟩))], []⟩) :=
  ⟨(claim_C3_probe_is_call_time ⟨2024, 1, 2, 3, 4, 5, 6⟩).1,
   (claim_C3_probe_is_call_time ⟨2024, 1, 2, 3, 4, 5, 6⟩).2.2⟩

/-- Counterexample to C5 as stated: at input −1.25 with one fractional digit
the decimal coercion produces −1.2 (`toFixed` resolves the tie toward +∞),
while round-half-away-from-zero would produce −1.3. -/
theorem claim_C5_counterexample :
    CastingManager.new.cast (.num (-(5 / 4))) "decimal:1" = ([], .num (-(6 / 5))) ∧
    roundHalfAwayFromZero (-(5 / 4)) 1 = -(13 / 10) ∧
    ((-(6 / 5) : ℚ) ≠ -(13 / 10)) := by
  refine ⟨?_, ?_, by norm_num⟩
  · have hp : parseTypeSpec "decimal:1" = ("decimal", ["1"]) := by rfl
    have hm : mapGet CastingManager.new.casters (asciiLower "decimal")
        = some CastFn.fnDecimal := by rfl
    have hk : toFixedDigits ["1"] = 1 := by decide
    have hfl : toFixedQ (-(5 / 4)) 1 = -(6 / 5) := by
      have : (⌊(-(5 / 4) : ℚ) * (10 : ℚ) ^ (1 : ℕ) + 1 / 2⌋ : ℤ) = -12 := by
        norm_num
      simp [toFixedQ, this]
      norm_num
    simp only [CastingManager.cast, castCore, hp, hm, invokeCastFn, asDecimal,
      isNullable, parseFloatJS, hk]
    norm_num [hfl]
  · have : (⌊((5 / 4) : ℚ) * (10 : ℚ) ^ (1 : ℕ) + 1 / 2⌋ : ℤ) = 13 := by norm_num
    simp [roundHalfAwayFromZero]
    norm_num [this]

/-- C5 amended: for every numeric input and in-range digits argument, the
decimal coercion rounds to the integer multiple of 10^−N nearest to the
input, resolving ties toward positive infinity (round-half-up, the ECMA
`toFixed` rule) — not half-away-from-zero, which differs on negative ties;
N defaults to 2 when the parameter is absent, and the two concrete examples
of the claim hold. -/
theorem claim_C5_decimal_rounding :
    (toFixedDigits [] = 2) ∧
    (CastingManager.new.cast (.str "123.456") "decimal:3" = ([], .num (123456 / 1000))) ∧
    (CastingManager.new.cast (.str "123.4567") "decimal:2" = ([], .num (12346 / 100))) ∧
    (∀ (q : ℚ) (spec : String) (params : List String) (k : ℤ),
      parseTypeSpec spec = ("decimal", params) → toFixedDigits params = k →
      0 ≤ k → k ≤ 100 →
      ∃ n : ℤ, CastingManager.new.cast (.num q) spec = ([], .num ((n : ℚ) / 10 ^ k.toNat)) ∧
        -(1 / 2 : ℚ) < (n : ℚ) - q * 10 ^ k.toNat ∧
        ((n : ℚ) - q * 10 ^ k.toNat) ≤ 1 / 2) := by
  have hm : mapGet CastingManager.new.casters (asciiLower "decimal")
      = some CastFn.fnDecimal := by rfl
  refine ⟨by decide, ?_, ?_, ?_⟩
  · have hp : parseTypeSpec "decimal:3" = ("decimal", ["3"]) := by rfl
    have hk : toFixedDigits ["3"] = 3 := by decide
    have hv : parseFloatJS (.str "123.456") = some (123456 / 1000) := by
      simp [parseFloatJS, jsToString, parseFloatChars, isJsWhitespace, parseSign,
        parseDecimal, takeDigits, digitVal?, digitsToNat, List.dropWhile]
      norm_num
    simp only [CastingManager.cast, castCore, hp, hm, invokeCastFn, asDecimal,
      isNullable, hv, hk]
    norm_num [toFixedQ]
    rw [show Int.toNat 3 = 3 from rfl]
    rw [show (⌊(15432 / 125 : ℚ) * 10 ^ (3 : ℕ) + 1 / 2⌋ : ℤ) = 123456 from by norm_num]
    norm_num
  · have hp : parseTypeSpec "decimal:2" = ("decimal", ["2"]) := by rfl
    have hk : toFixedDigits ["2"] = 2 := by decide
    have hv : parseFloatJS (.str "123.4567") = some (1234567 / 10000) := by
      simp [parseFloatJS, jsToString, parseFloatChars, isJsWhitespace, parseSign,
        parseDecimal, takeDigits, digitVal?, digitsToNat, List.dropWhile]
      norm_num
    simp only [CastingManager.cast, castCore, hp, hm, invokeCastFn, asDecimal,
      isNullable, hv, hk]
    norm_num [toFixedQ]
    rw [show Int.toNat 2 = 2 from rfl]
    rw [show (⌊(1234567 / 10000 : ℚ) * 10 ^ (2 : ℕ) + 1 / 2⌋ : ℤ) = 12346 from by norm_num]
    norm_num
  · intro q spec params k hs hk hk0 hk1
    refine ⟨⌊q * (10 : ℚ) ^ k.toNat + 1 / 2⌋, ?_, ?_, ?_⟩
    · have hrange : ¬(k < 0 ∨ 100 < k) := by omega
      simp only [CastingManager.cast, castCore, hs, hm, invokeCastFn, asDecimal,
        isNullable, parseFloatJS, hk]
      simp [hrange, toFixedQ]
    · have h2 := Int.lt_floor_add_one (q * (10 : ℚ) ^ k.toNat + 1 / 2)
      push_cast at h2 ⊢
      linarith
    · have h1 := Int.floor_le (q * (10 : ℚ) ^ k.toNat + 1 / 2)
      push_cast at h1 ⊢
      linarith

/-- Witness for C5 amended: the general rounding clause at −1.25 with one
digit. -/
theorem claim_C5_decimal_rounding_witness :
    ∃ n : ℤ, CastingManager.new.cast (.num (-(5 / 4))) "decimal:1"
        = ([], .num ((n : ℚ) / 10 ^ (1 : ℤ).toNat)) ∧
      -(1 / 2 : ℚ) < (n : ℚ) - -(5 / 4) * 10 ^ (1 : ℤ).toNat ∧
      ((n : ℚ) - -(5 / 4) * 10 ^ (1 : ℤ).toNat) ≤ 1 / 2 :=
  claim_C5_decimal_rounding.2.2.2 (-(5 / 4)) "decimal:1" ["1"] 1
    (by rfl) (by decide) (by decide) (by decide)

/-- C9: the boolean coercion is plain truthiness: every non-empty string
(including the spellings "false", "no" and "0") casts to `true`; `null`,
`undefined`, `0` and the empty string cast to `false`. -/
theorem claim_C9_boolean_truthiness :
    (∀ s : String, s ≠ "" → CastingManager.new.cast (.str s) "boolean" = ([], .bool true)) ∧
    (CastingManager.new.cast (.str "false") "boolean" = ([], .bool true)) ∧
    (CastingManager.new.cast (.str "no") "boolean" = ([], .bool true)) ∧
    (CastingManager.new.cast (.str "0") "boolean" = ([], .bool true)) ∧
    (CastingManager.new.cast .null "boolean" = ([], .bool false)) ∧
    (CastingManager.new.cast .undefined "boolean" = ([], .bool false)) ∧
    (CastingManager.new.cast (.num 0) "boolean" = ([], .bool false)) ∧
    (CastingManager.new.cast (.str "") "boolean" = ([], .bool false)) := by
  have hp : parseTypeSpec "boolean" = ("boolean", []) := by rfl
  have hm : mapGet CastingManager.new.casters (asciiLower "boolean")
      = some CastFn.fnBoolean := by rfl
  have hcast : ∀ v : JSVal, CastingManager.new.cast v "boolean" = ([], asBoolean v) := by
    intro v
    simp only [CastingManager.cast, castCore, hp, hm, invokeCastFn]
  have hgen : ∀ s : String, s ≠ "" →
      CastingManager.new.cast (.str s) "boolean" = ([], .bool true) := by
    intro s hs
    rw [hcast]
    simp [asBoolean, jsTruthy, hs]
  refine ⟨hgen, hgen _ (by simp), hgen _ (by simp), hgen _ (by simp), ?_, ?_, ?_, ?_⟩ <;>
    (rw [hcast]; simp [asBoolean, jsTruthy])

/-- Witness for C9: "yes" is non-empty and casts to `true`. -/
theorem claim_C9_boolean_truthiness_witness :
    CastingManager.new.cast (.str "yes") "boolean" = ([], .bool true) :=
  claim_C9_boolean_truthiness.1 "yes" (by simp)

/-- C8: the list coercion wraps any non-array (including `null`) in a
singleton, leaves arrays unchanged, and with an element-type parameter maps
`cast` over every element through the same registry. -/
theorem claim_C8_array_coercion :
    (∀ v : JSVal, asArrayElems? v = none →
      CastingManager.new.cast v "array" = ([], .arr [v])) ∧
    (CastingManager.new.cast .null "array" = ([], .arr [.null])) ∧
    (∀ xs : List JSVal, CastingManager.new.cast (.arr xs) "array" = ([], .arr xs)) ∧
    (CastingManager.new.cast (.arr [.str "1", .str "2"]) "array:number"
      = ([], .arr [.num 1, .num 2])) ∧
    (∀ (m : CastingManager) (xs : List JSVal) (s t : String) (ps : List String),
      parseTypeSpec s = ("array", t :: ps) → t ≠ "" →
      mapGet m.casters (asciiLower "array") = some .fnArray →
      (m.cast (.arr xs) s).2 = .arr (xs.map (fun x => (m.cast x t).2))) := by
  have hp : parseTypeSpec "array" = ("array", []) := by rfl
  have hm : mapGet CastingManager.new.casters (asciiLower "array")
      = some CastFn.fnArray := by rfl
  have hgen : ∀ v : JSVal, asArrayElems? v = none →
      CastingManager.new.cast v "array" = ([], .arr [v]) := by
    intro v hv
    cases v <;>
      first
        | (simp only [asArrayElems?, reduceCtorEq] at hv; done)
        | simp [CastingManager.cast, castCore, hp, hm, invokeCastFn, asArrayElems?]
  refine ⟨hgen, hgen .null (by rfl), ?_, ?_, ?_⟩
  · intro xs
    simp [CastingManager.cast, castCore, hp, hm, invokeCastFn, asArrayElems?]
  · have hp2 : parseTypeSpec "array:number" = ("array", ["number"]) := by rfl
    have hpn : parseTypeSpec "number" = ("number", []) := by rfl
    have hmn : mapGet CastingManager.new.casters (asciiLower "number")
        = some CastFn.fnNumber := by rfl
    have h1 : castCore CastingManager.new.casters (.str "1") "number" = ([], .num 1) := by
      have hn : numberJS (.str "1") = some 1 := by
        simp [numberJS, strToNumber?, jsTrim, isJsWhitespace, parseSign, parseDecimal,
          takeDigits, digitVal?, digitsToNat, List.dropWhile]
      simp only [castCore, hpn, hmn, invokeCastFn]
      simp [asNumber, isNullable, hn]
    have h2 : castCore CastingManager.new.casters (.str "2") "number" = ([], .num 2) := by
      have hn : numberJS (.str "2") = some 2 := by
        simp [numberJS, strToNumber?, jsTrim, isJsWhitespace, parseSign, parseDecimal,
          takeDigits, digitVal?, digitsToNat, List.dropWhile]
      simp only [castCore, hpn, hmn, invokeCastFn]
      simp [asNumber, isNullable, hn]
    simp only [CastingManager.cast, castCore, hp2, hm, invokeCastFn, asArrayElems?]
    simp [castList, h1, h2]
  · intro m xs s t ps hs ht hm'
    have key : m.cast (.arr xs) s
        = ((castList m.casters xs t).1, .arr ((castList m.casters xs t).2)) := by
      show castCore m.casters (.arr xs) s = _
      rw [castCore.eq_def]
      simp [hs, hm', invokeCastFn, asArrayElems?, ht]
    rw [key, castList_snd_eq_map]
    rfl

/-- Witness for C8: wrapping a number, and the mapping clause at a concrete
registry, array and specifier. -/
theorem claim_C8_array_coercion_witness :
    CastingManager.new.cast (.num 7) "array" = ([], .arr [.num 7]) ∧
    (CastingManager.new.cast (.arr [.null]) "array:boolean").2
      = .arr [(CastingManager.new.cast .null "boolean").2] := by
  constructor
  · exact claim_C8_array_coercion.1 (.num 7) (by rfl)
  · have h := claim_C8_array_coercion.2.2.2.2 CastingManager.new [.null]
      "array:boolean" "boolean" [] (by rfl) (by simp) (by rfl)
    simpa using h

/-- C10: `register` without a serialize function touches only the caster
entry for the lower-cased name: the serializers table is unchanged, other
caster entries are unchanged, and `serialize` behaves identically before and
after. -/
theorem claim_C10_register_frame (m : CastingManager) (name : String) (f : CastFn) :
    ((m.register name f none).serializers = m.serializers) ∧
    (mapGet (m.register name f none).casters (asciiLower name) = some f) ∧
    (∀ k : String, k ≠ asciiLower name →
      mapGet (m.register name f none).casters k = mapGet m.casters k) ∧
    (∀ (v : JSVal) (s : String),
      (m.register name f none).serialize v s = m.serialize v s) := by
  refine ⟨rfl, ?_, ?_, ?_⟩
  · exact mapGet_mapSet_self m.casters (asciiLower name) f
  · intro k hk
    exact mapGet_mapSet_ne m.casters (asciiLower name) k f hk
  · intro v s
    rfl

/-- Witness for C10: re-registering "number" with a new caster leaves the
serializer table and a distinct caster entry ("decimal") untouched. -/
theorem claim_C10_register_frame_witness :
    ((CastingManager.new.register "number" .fnBoolean none).serializers
      = CastingManager.new.serializers) ∧
    (mapGet (CastingManager.new.register "number" .fnBoolean none).casters "decimal"
      = mapGet CastingManager.new.casters "decimal") ∧
    ((CastingManager.new.register "number" .fnBoolean none).serialize (.num 3) "date"
      = CastingManager.new.serialize (.num 3) "date") := by
  have h := claim_C10_register_frame CastingManager.new "number" .fnBoolean
  exact ⟨h.1, h.2.2.1 "decimal" (by simp [asciiLower, asciiLowerChar]),
    h.2.2.2 (.num 3) "date"⟩

/-- C7: applying a mixin by an unregistered name throws
`Error("Mixin '<name>' not found")` — reported to the caller, not swallowed —
and the class is left completely unmodified. -/
theorem claim_C7_unknown_trait_error (b : ClassBuilder) (sh : Shape) (name : String)
    (options : TraitOptions) (h : mapGet b.mixins name = none) :
    b.apply sh name options
      = (.error (.genericError ("Mixin '" ++ name ++ "' not found")), sh) := by
  simp [ClassBuilder.apply, h]

/-- C6: the round-trip law `cast(serialize(x, T), T) == x` for well-formed
values of the built-in coercions: any number for `number`; numbers with at
most two fractional digits for `decimal` (the default precision re-rounds on
the way back); valid dates at UTC midnight for `date` (its serializer emits
only the calendar date); and any valid date for `datetime`. -/
theorem claim_C6_roundtrip :
    (∀ q : ℚ, roundtrip CastingManager.new (.num q) "number" = some (.num q)) ∧
    (∀ q : ℚ, (∃ n : ℤ, q * 100 = (n : ℚ)) →
      roundtrip CastingManager.new (.num q) "decimal" = some (.num q)) ∧
    (∀ d : DTime, validDTime d = true → d.hour = 0 → d.minute = 0 → d.second = 0 →
      d.ms = 0 →
      roundtrip CastingManager.new (.date (some d)) "date" = some (.date (some d))) ∧
    (∀ d : DTime, validDTime d = true →
      roundtrip CastingManager.new (.date (some d)) "datetime" = some (.date (some d))) := by
  have hpn : parseTypeSpec "number" = ("number", []) := by rfl
  have hpdec : parseTypeSpec "decimal" = ("decimal", []) := by rfl
  have hpd : parseTypeSpec "date" = ("date", []) := by rfl
  have hpdt : parseTypeSpec "datetime" = ("datetime", []) := by rfl
  have hsn : mapGet CastingManager.new.serializers (asciiLower "number") = none := by rfl
  have hsdec : mapGet CastingManager.new.serializers (asciiLower "decimal") = none := by rfl
  have hsd : mapGet CastingManager.new.serializers (asciiLower "date")
      = some SerFn.fnSerDate := by rfl
  have hsdt : mapGet CastingManager.new.serializers (asciiLower "datetime")
      = some SerFn.fnSerDateTime := by rfl
  have hmn : mapGet CastingManager.new.casters (asciiLower "number")
      = some CastFn.fnNumber := by rfl
  have hmdec : mapGet CastingManager.new.casters (asciiLower "decimal")
      = some CastFn.fnDecimal := by rfl
  have hmd : mapGet CastingManager.new.casters (asciiLower "date")
      = some CastFn.fnDate := by rfl
  have hmdt : mapGet CastingManager.new.casters (asciiLower "datetime")
      = some CastFn.fnDateTime := by rfl
  refine ⟨?_, ?_, ?_, ?_⟩
  · intro q
    simp [roundtrip, CastingManager.serialize, serializeCore, toJSONResult?,
      asArrayElems?, hpn, serializeResolve, hsn, CastingManager.cast, castCore,
      hmn, invokeCastFn, asNumber, isNullable]
  · rintro q ⟨n, hn⟩
    have hfix : toFixedQ q 2 = q := by
      unfold toFixedQ
      have h100 : q * (10 : ℚ) ^ (2 : ℕ) = (n : ℚ) := by linarith
      rw [h100]
      have hfl : (⌊(n : ℚ) + 1 / 2⌋ : ℤ) = n := by
        rw [Int.floor_int_add]
        norm_num
      rw [hfl]
      rw [← h100]
      field_simp
    have hdig : toFixedDigits [] = 2 := by decide
    simp [roundtrip, CastingManager.serialize, serializeCore, toJSONResult?,
      asArrayElems?, hpdec, serializeResolve, hsdec, CastingManager.cast, castCore,
      hmdec, invokeCastFn, asDecimal, isNullable, parseFloatJS, hdig, hfix]
  · intro d hval hh0 hm0 hs0 hms0
    have hdata : (String.mk (isoDateChars d)).data = isoDateChars d := rfl
    simp [roundtrip, CastingManager.serialize, serializeCore, toJSONResult?,
      asArrayElems?, hpd, serializeResolve, hsd, invokeSerFn, serializeDate,
      isNullable, CastingManager.cast, castCore, hmd, invokeCastFn, asDate,
      jsNewDate, hdata, parseISO_isoDateChars d hval hh0 hm0 hs0 hms0]
  · intro d hval
    have hdata : (String.mk (isoDateTimeChars d)).data = isoDateTimeChars d := rfl
    simp [roundtrip, CastingManager.serialize, serializeCore, toJSONResult?,
      asArrayElems?, hpdt, serializeResolve, hsdt, invokeSerFn, serializeDateTime,
      isNullable, CastingManager.cast, castCore, hmdt, invokeCastFn, asDateTime,
      jsNewDate, hdata, parseISO_isoDateTimeChars d hval]

/-- Witness for C6: concrete round trips — 3.14 through `decimal`, 2023-05-15
midnight through `date`, and a full timestamp through `datetime`. -/
theorem claim_C6_roundtrip_witness :
    roundtrip CastingManager.new (.num (314 / 100)) "decimal" = some (.num (314 / 100)) ∧
    roundtrip CastingManager.new (.date (some ⟨2023, 5, 15, 0, 0, 0, 0⟩)) "date"
      = some (.date (some ⟨2023, 5, 15, 0, 0, 0, 0⟩)) ∧
    roundtrip CastingManager.new (.date (some ⟨2023, 5, 15, 12, 30, 45, 123⟩)) "datetime"
      = some (.date (some ⟨2023, 5, 15, 12, 30, 45, 123⟩)) :=
  ⟨claim_C6_roundtrip.2.1 (314 / 100) ⟨314, by norm_num⟩,
   claim_C6_roundtrip.2.2.1 ⟨2023, 5, 15, 0, 0, 0, 0⟩ (by decide) rfl rfl rfl rfl,
   claim_C6_roundtrip.2.2.2 ⟨2023, 5, 15, 12, 30, 45, 123⟩ (by decide)⟩

/-- Witness for C7: a builder with the built-in mixins registered rejects an
unknown trait name and leaves the fresh shape unchanged. -/
theorem claim_C7_unknown_trait_error_witness :
    (ClassBuilder.mk CastingManager.new
        [("timestamps", .timestampsFn), ("softDelete", .softDeleteFn)]).apply
      Shape.empty "nonexistent" TraitOptions.empty
      = (.error (.genericError ("Mixin '" ++ "nonexistent" ++ "' not found")), Shape.empty) :=
  claim_C7_unknown_trait_error _ Shape.empty "nonexistent" TraitOptions.empty (by rfl)

end Hydrator
